import Mathlib

/-!
Shallow embedding of the scene-video compositor of
`src/services/videoRecorder.ts` (functions `generateStoryVideo`,
`drawKenBurns`, `drawCinematicTransition`, `drawSubtitles`), together with
the data model of `src/types.ts`.

Host primitives (the canvas 2D context, `Math.sin`, the audio decoder, the
image decoder and the `MediaRecorder` encoder) are not code of this
repository; they are modelled as explicit parameters or as total record
operations.  Floating-point numbers are modelled as rationals (reals where
an irrational input matters).
-/

/-- A raw byte buffer (`ArrayBuffer`): an identity plus its byte content.
The identity lets us model buffer-level effects such as detachment by the
audio decoder. -/
structure Buf where
  bufId : Nat
  data : List Nat
deriving DecidableEq, Repr

/-- `Scene` from `src/types.ts`: `id`, `narration`, `visual_prompt`,
optional base64 `imageData`, optional raw PCM `audioData`. -/
structure Scene where
  id : Nat
  narration : String
  visual_prompt : String
  imageData : Option String
  audioData : Option Buf
deriving DecidableEq, Repr

instance : Inhabited Scene := ⟨⟨0, "", "", none, none⟩⟩

/-- `Story` from `src/types.ts` plus the `aspectRatio` field read by
`generateStoryVideo` (`story.aspectRatio === '9:16'`). -/
structure Story where
  id : String
  title : String
  introduction : String
  scenes : List Scene
  createdAt : Nat
  aspectRatio : String
deriving DecidableEq, Repr

/-- A decoded audio buffer; the compositor only ever reads its
`duration` (in seconds). -/
structure AudioBuffer where
  duration : ℚ
deriving DecidableEq, Repr

/-- Decoded pixel data of an image, with its intrinsic size
(`img.width`, `img.height`). -/
structure ImageBitmap where
  width : ℚ
  height : ℚ
deriving DecidableEq, Repr

/-- An `HTMLImageElement` after the preload loop: `bitmap = none` models a
failed decode (`img.onerror` resolved the promise, the element carries no
pixel data and reports zero intrinsic size). -/
structure LoadedImage where
  bitmap : Option ImageBitmap
deriving DecidableEq, Repr

/-- The host services `generateStoryVideo` calls out to: the audio decoder
`decodeAudioData` (repository code outside `src/`, reachable only through
its `Except` outcome here), the browser image decoder, and the canvas text
measurer `ctx.measureText`. -/
structure RenderEnv where
  decodeAudio : List Nat → Except Unit AudioBuffer
  decodeImage : Option String → Option ImageBitmap
  measure : String → ℚ

/-- Canvas width from lines 9–10: 720 when the story is vertical (`9:16`),
else 1280. -/
def canvasWidth (story : Story) : ℚ :=
  if story.aspectRatio = "9:16" then 720 else 1280

/-- Canvas height from lines 9–11: 1280 when vertical, else 720. -/
def canvasHeight (story : Story) : ℚ :=
  if story.aspectRatio = "9:16" then 1280 else 720

/-- The preload loop body (lines 54–60): build an image element from the
scene's base64 `imageData`; both `onload` and `onerror` resolve, so a
failed decode yields an element with no bitmap. -/
def loadImage (env : RenderEnv) (scene : Scene) : LoadedImage :=
  ⟨env.decodeImage scene.imageData⟩

/-- Lines 79–86: the `audioBuffer` variable after the guarded decode.
`null` when the scene has no `audioData` or when `decodeAudioData` throws
(the `try`/`catch` swallows the error). -/
def prepareAudio (decode : List Nat → Except Unit AudioBuffer) (scene : Scene) :
    Option AudioBuffer :=
  match scene.audioData with
  | none => none
  | some b =>
    match decode b.data with
    | .ok buf => some buf
    | .error _ => none

/-- Line 89: `const duration = audioBuffer ? audioBuffer.duration : 3.0`. -/
def sceneDuration (decode : List Nat → Except Unit AudioBuffer) (scene : Scene) : ℚ :=
  match prepareAudio decode scene with
  | some buf => buf.duration
  | none => 3

/-! ## Subtitle word wrap (`drawSubtitles`, lines 290–305)

`text.split('')` splits the narration into single characters; the loop
starts from index 1 with `currentLine = words[0]`.  For an empty narration
`words[0]` is `undefined`, modelled as `none`. -/

/-- The wrap loop of lines 295–305 for a non-empty character list:
`currentLine` accumulates characters while
`measureText(currentLine + word).width < maxWidth`; otherwise the current
line is pushed and the character starts a new line.  The final
`lines.push(currentLine)` is the `[]` case. -/
def wrapGo (measure : String → ℚ) (maxWidth : ℚ) :
    List Char → List Char → List (List Char)
  | cur, [] => [cur]
  | cur, c :: cs =>
    if measure (String.mk (cur ++ [c])) < maxWidth then
      wrapGo measure maxWidth (cur ++ [c]) cs
    else
      cur :: wrapGo measure maxWidth [c] cs

/-- Lines 291–305 as a whole: the `lines` array.  An element is `none`
exactly when JavaScript would store `undefined` there, which happens only
for the empty narration (`words[0]` is `undefined` and the loop never
runs). -/
def wrapChars (measure : String → ℚ) (maxWidth : ℚ) (text : String) :
    List (Option String) :=
  match text.data with
  | [] => [none]
  | c :: rest => (wrapGo measure maxWidth [c] rest).map (fun l => some (String.mk l))

/-! ## Ken-Burns and breathing scale (lines 114–128) -/

/-- Lines 116–121: `zoomDirection = i % 2 === 0 ? 1 : -1`, then the scale
is `1.1 + 0.15 * progress` zooming in, `(1.1 + 0.15) - 0.15 * progress`
zooming out.  Polymorphic over the number field so it can be read both at
`ℚ` (executable) and at `ℝ` (against the real `Math.sin`). -/
def kenBurnsScale {K : Type} [LinearOrderedField K] (i : Nat) (progress : K) : K :=
  if i % 2 = 0 then 1.1 + 0.15 * progress else (1.1 + 0.15) - 0.15 * progress

/-- Lines 125–128: the scale actually handed to `drawKenBurns` is
`currentScale + Math.sin(elapsed * 2) * 0.005`, with
`progress = elapsed / duration`.  The host `Math.sin` is the `sin`
parameter. -/
def appliedScale {K : Type} [LinearOrderedField K] (sin : K → K) (i : Nat)
    (elapsed duration : K) : K :=
  kenBurnsScale i (elapsed / duration) + sin (elapsed * 2) * 0.005

/-! ## Transition engine (lines 144–163 and `drawCinematicTransition`) -/

/-- Lines 156–158: cubic ease-in-out,
`4p·p·p` for `p < 0.5`, else `1 - (-2p+2)³ / 2`. -/
def easeInOutCubic {K : Type} [LinearOrderedField K] (p : K) : K :=
  if p < 0.5 then 4 * p * p * p else 1 - (-2 * p + 2) ^ 3 / 2

/-- Line 145: `const transitionDuration = 0.8`. -/
def transitionDuration : ℚ := 0.8

/-- What one call of `drawCinematicTransition` does to the two layers:
the horizontal translation applied before drawing the outgoing image A,
the translation of the incoming image B, the darkening alpha painted over
A, and the fixed Ken-Burns zooms of the two layers. -/
structure TransitionFrame (K : Type) where
  outgoingShift : K
  incomingShift : K
  darkenAlpha : K
  scaleA : K
  scaleB : K
deriving DecidableEq, Repr

/-- `drawCinematicTransition` (lines 233–276): `offsetX = w * progress`;
A is drawn under `translate(-offsetX, 0)` at zoom 1.25 and darkened with
alpha `progress * 0.5`; B is drawn under `translate(w - offsetX, 0)` at
zoom 1.1.  `sceneIndex` is accepted but never used: the push is always
leftward. -/
def drawCinematicTransition {K : Type} [LinearOrderedField K]
    (w : K) (progress : K) (sceneIndex : Nat) : TransitionFrame K :=
  let _ := sceneIndex
  let offsetX := w * progress
  { outgoingShift := -offsetX
    incomingShift := w - offsetX
    darkenAlpha := progress * 0.5
    scaleA := 1.25
    scaleB := 1.1 }

/-- One frame of the transition loop (lines 148–163) at elapsed time
`t` since the transition started: the eased progress
`easeInOutCubic (t / 0.8)` is what reaches `drawCinematicTransition`. -/
def transitionFrameAt (w : ℚ) (i : Nat) (t : ℚ) : TransitionFrame ℚ :=
  drawCinematicTransition w (easeInOutCubic (t / transitionDuration)) i

/-! ## Canvas frames (`drawKenBurns`, `drawSubtitles`) -/

/-- One primitive painting operation recorded on the shared canvas. -/
inductive DrawOp where
  | clear
  | image (bitmap : Option ImageBitmap) (x y w h : ℚ)
  | rect (x y w h : ℚ)
  | text (line : Option String) (x y : ℚ)
  | setAlpha (a : ℚ)
deriving DecidableEq, Repr

/-- `drawKenBurns` (lines 210–231): cover-fit the image to the canvas,
multiply by `scale`, centre, and issue one `drawImage`.  A broken image
element reports zero intrinsic size and carries no bitmap.
Modelled from the spec: the host `drawImage` never throws; for an image
whose decode failed it paints no pixel data (the recorded operation
carries `none`). -/
def drawKenBurns (img : LoadedImage) (w h scale : ℚ) : List DrawOp :=
  let imgW := (img.bitmap.map (fun b => b.width)).getD 0
  let imgH := (img.bitmap.map (fun b => b.height)).getD 0
  let imgRatio := imgW / imgH
  let canvasRatio := w / h
  let base := if imgRatio > canvasRatio then (h * imgRatio, h) else (w, w / imgRatio)
  let renderW := base.1 * scale
  let renderH := base.2 * scale
  [DrawOp.image img.bitmap ((w - renderW) / 2) ((h - renderH) / 2) renderW renderH]

/-- `drawSubtitles` (lines 280–339): wrap the narration with
`maxWidth = w - 4 * padding`, draw the gradient backdrop strip, then each
line bottom-up, all under `globalAlpha = opacity`. -/
def drawSubtitles (measure : String → ℚ) (text : String) (w h opacity : ℚ) :
    List DrawOp :=
  let fontSize : ℚ := if h > w then 40 else 36
  let padding : ℚ := 24
  let bottomMargin : ℚ := if h > w then 150 else 60
  let maxWidth := w - padding * 4
  let lines := wrapChars measure maxWidth text
  let lineHeight := fontSize * 1.4
  let totalTextHeight := (lines.length : ℚ) * lineHeight
  let bgHeight := totalTextHeight + padding * 2
  DrawOp.setAlpha opacity
    :: DrawOp.rect 0 (h - bgHeight - bottomMargin - 20) w (bgHeight + 40)
    :: lines.enum.map (fun p =>
         DrawOp.text p.2 (w / 2)
           (h - bottomMargin - padding - (((lines.length : ℚ) - 1 - (p.1 : ℚ)) * lineHeight)))

/-- One iteration of the main scene loop (lines 103–136): clear the
canvas, draw the background with the Ken-Burns-plus-breathing scale, then
the subtitles with the fade-in opacity `min(elapsed * 2, 1)`.
`sinSample` is the value `Math.sin(elapsed * 2)` returned by the host. -/
def renderSceneFrame (measure : String → ℚ) (i : Nat) (scene : Scene)
    (img : LoadedImage) (w h sinSample elapsed duration : ℚ) : List DrawOp :=
  DrawOp.clear
    :: drawKenBurns img w h (kenBurnsScale i (elapsed / duration) + sinSample * 0.005)
    ++ drawSubtitles measure scene.narration w h (min (elapsed * 2) 1)

/-! ## Timeline and progress (`generateStoryVideo` control flow) -/

/-- One segment of the sequential render timeline. -/
inductive Segment where
  | preload
  | scenePlayback (index : Nat) (duration : ℚ)
  | transition (index : Nat)
  | outro
  | finalize
deriving DecidableEq, Repr

/-- The per-scene part of the timeline (lines 71–165): scene `i` plays for
`sceneDuration` seconds, followed by a transition exactly when
`loadedImages[i + 1]` exists, i.e. when `i + 1 < scenes.length`. -/
def sceneTimeline (decode : List Nat → Except Unit AudioBuffer)
    (scenes : List Scene) : List Segment :=
  (List.range scenes.length).flatMap fun i =>
    Segment.scenePlayback i (sceneDuration decode (scenes.getD i default))
      :: (if i + 1 < scenes.length then [Segment.transition i] else [])

/-- The whole timeline of one render (lines 49–193): preload, the scene
segments, the outro fade (lines 167–188), the finalize tail. -/
def renderSegments (env : RenderEnv) (story : Story) : List Segment :=
  Segment.preload :: sceneTimeline env.decodeAudio story.scenes
    ++ [Segment.outro, Segment.finalize]

/-- The percent values handed to `onProgress`, in emission order:
`(i / n) * 10` before each image preload (line 53), `10 + (i / n) * 85`
before each scene (line 76), and `99` before the outro (line 168).
Nothing after line 168 calls `onProgress`. -/
def progressPercents (n : Nat) : List ℚ :=
  ((List.range n).map fun i : Nat => ((i : ℚ) / (n : ℚ)) * 10)
    ++ ((List.range n).map fun i : Nat => 10 + ((i : ℚ) / (n : ℚ)) * 85)
    ++ [99]

/-- State of the two resources released in the `finally` block
(lines 198–201): `recorder.stop()` and `audioCtx.close()`. -/
structure Cleanup where
  recorderStopped : Bool
  audioCtxClosed : Bool
deriving DecidableEq, Repr

/-- The returned artifact: `new Blob(chunks, { type: 'video/webm' })`
(line 205). -/
structure Blob where
  mimeType : String
deriving DecidableEq, Repr

/-- Lines 195–207: the `try`/`catch`/`finally` tail of
`generateStoryVideo`.  The `finally` block always stops the recorder and
closes the audio context; the `catch` rethrows, so an error of the body
propagates and no blob is produced; on success the chunks become the
`video/webm` blob. -/
def finishRender {ε : Type} (body : Except ε Unit) : Cleanup × Except ε Blob :=
  (⟨true, true⟩, body.map fun _ => ⟨"video/webm"⟩)

/-- The observable outcome of one `generateStoryVideo` call. -/
structure RenderResult where
  segments : List Segment
  progress : List ℚ
  cleanup : Cleanup
  result : Except Unit Blob

/-- `generateStoryVideo` (lines 4–208) at the trace level: every failure
the body can meet (absent images, undecodable audio) is handled softly
inside the loop, so the body completes and the `finally`/return tail runs
on the success path. -/
def generateStoryVideo (env : RenderEnv) (story : Story) : RenderResult :=
  { segments := renderSegments env story
    progress := progressPercents story.scenes.length
    cleanup := (finishRender (ε := Unit) (.ok ())).1
    result := (finishRender (ε := Unit) (.ok ())).2 }

/-! ## Buffer identity model for the decode calls (lines 80–86) -/

/-- Line 82: `scene.audioData.slice(0)` — a fresh buffer (identity chosen
by the allocator) holding the same bytes. -/
def sliceCopy (freshId : Nat) (b : Buf) : Buf :=
  ⟨freshId, b.data⟩

/-- The buffers `generateStoryVideo` hands to `decodeAudioData`, in order:
for each scene with audio, the slice copy — never the scene's own
buffer. -/
def decodeCallBufs (alloc : Nat → Nat) (story : Story) : List Buf :=
  story.scenes.enum.filterMap fun p => p.2.audioData.map (sliceCopy (alloc p.1))

/-- The buffer identities owned by the story's scenes. -/
def storyBufIds (story : Story) : List Nat :=
  story.scenes.filterMap fun s => s.audioData.map (fun b => b.bufId)

/-- Modelled from the spec: the host audio decoder consumes (detaches) the
buffer it is given, so every buffer identity passed to a decode call is
dead after the render. -/
def detachedIds (alloc : Nat → Nat) (story : Story) : List Nat :=
  (decodeCallBufs alloc story).map (fun b => b.bufId)

/-- The story as seen through its references once the render finished:
scene fields are never assigned, and a scene's audio buffer survives
exactly when its identity was not detached by a decode call. -/
def storyAfterRender (alloc : Nat → Nat) (story : Story) : Story :=
  { story with
    scenes := story.scenes.map fun s =>
      { s with
        audioData := s.audioData.bind fun b =>
          if b.bufId ∈ detachedIds alloc story then none else some b } }

/-! ## Lemmas and claim theorems -/

lemma wrapGo_ne_nil (measure : String → ℚ) (maxWidth : ℚ) :
    ∀ (cs : List Char) (cur : List Char), wrapGo measure maxWidth cur cs ≠ [] := by
  intro cs
  induction cs with
  | nil => intro cur; simp [wrapGo]
  | cons c cs ih =>
    intro cur
    rw [wrapGo]
    split
    · exact ih _
    · simp

lemma wrapGo_flatten (measure : String → ℚ) (maxWidth : ℚ) :
    ∀ (cs : List Char) (cur : List Char),
      (wrapGo measure maxWidth cur cs).flatten = cur ++ cs := by
  intro cs
  induction cs with
  | nil => intro cur; simp [wrapGo]
  | cons c cs ih =>
    intro cur
    rw [wrapGo]
    split
    · rw [ih]; simp
    · simp only [List.flatten_cons, ih]; simp

/-- C2: for every narration string of length ≥ 1 the character-level wrap
of `drawSubtitles` produces at least one line (all of them real strings,
none `undefined`), and concatenating the lines in order reproduces the
narration exactly — for every text measurer and every available width,
including a width too small for a single character. -/
theorem wrap_roundtrip (measure : String → ℚ) (maxWidth : ℚ) (text : String)
    (h : 1 ≤ text.length) :
    ∃ ls : List String, wrapChars measure maxWidth text = ls.map some ∧
      1 ≤ ls.length ∧ String.join ls = text := by
  obtain ⟨data⟩ := text
  cases data with
  | nil => simp [String.length] at h
  | cons c rest =>
    refine ⟨(wrapGo measure maxWidth [c] rest).map (fun l => String.mk l), ?_, ?_, ?_⟩
    · rw [wrapChars]
      simp [List.map_map]
    · have hne := wrapGo_ne_nil measure maxWidth rest [c]
      simpa [Nat.one_le_iff_ne_zero, List.length_eq_zero] using hne
    · apply String.ext
      rw [String.data_join]
      simp only [List.map_map]
      have : ((wrapGo measure maxWidth [c] rest).map fun l => (String.mk l).data)
          = wrapGo measure maxWidth [c] rest := by
        simp
      rw [Function.comp_def, this, wrapGo_flatten]
      rfl

/-- C2 witness: a concrete narration of length 2 under a width that fits
nothing: two lines come back and they concatenate to the narration. -/
theorem wrap_roundtrip_witness :
    1 ≤ ("ab" : String).length ∧
      ∃ ls : List String, wrapChars (fun _ => 5) 1 "ab" = ls.map some ∧
        1 ≤ ls.length ∧ String.join ls = "ab" :=
  ⟨by decide, wrap_roundtrip (fun _ => 5) 1 "ab" (by decide)⟩

/-- C9: on the empty narration the wrap seeds its current line from
`words[0]` of an empty array, so the single produced line is the
`undefined` value (`none`), never the empty string — the round-trip
guarantee of `wrap_roundtrip` therefore starts at length 1. -/
theorem wrap_empty_line_is_undefined (measure : String → ℚ) (maxWidth : ℚ) :
    wrapChars measure maxWidth "" = [none] ∧
      ∀ s : String, wrapChars measure maxWidth "" ≠ [some s] := by
  refine ⟨rfl, ?_⟩
  intro s hs
  rw [show wrapChars measure maxWidth "" = [none] from rfl] at hs
  simp at hs

/-- C1: a scene whose audio decodes successfully is displayed for exactly
the decoded buffer's duration; a scene with absent or undecodable audio is
displayed for exactly 3.0 seconds; and no decode outcome aborts the
render — every scene still gets a playback segment and the render still
returns a blob. -/
theorem scene_duration_matches_audio (decode : List Nat → Except Unit AudioBuffer)
    (scene : Scene) :
    (∀ b buf, scene.audioData = some b → decode b.data = .ok buf →
        sceneDuration decode scene = buf.duration) ∧
    (scene.audioData = none → sceneDuration decode scene = 3) ∧
    (∀ b e, scene.audioData = some b → decode b.data = .error e →
        sceneDuration decode scene = 3) ∧
    (∀ env story i, i < story.scenes.length →
        (generateStoryVideo env story).result.isOk = true ∧
        Segment.scenePlayback i
            (sceneDuration env.decodeAudio (story.scenes.getD i default))
          ∈ (generateStoryVideo env story).segments) := by
  refine ⟨?_, ?_, ?_, ?_⟩
  · intro b buf hb hd
    simp [sceneDuration, prepareAudio, hb, hd]
  · intro hb
    simp [sceneDuration, prepareAudio, hb]
  · intro b e hb hd
    simp [sceneDuration, prepareAudio, hb, hd]
  · intro env story i hi
    refine ⟨rfl, ?_⟩
    show _ ∈ renderSegments env story
    rw [renderSegments]
    refine List.mem_cons_of_mem _ (List.mem_append_left _ ?_)
    rw [sceneTimeline]
    exact List.mem_flatMap.mpr ⟨i, List.mem_range.mpr hi, List.mem_cons_self _ _⟩

/-- C1 witness: one scene whose bytes decode to a 2-second buffer is shown
for 2 seconds; its sibling with no audio is shown for 3; and in a
one-scene story the playback segment is scheduled and the render
succeeds. -/
theorem scene_duration_matches_audio_witness :
    (sceneDuration (fun bs => if bs = [7] then .ok ⟨2⟩ else .error ())
        ⟨0, "hi", "", none, some ⟨4, [7]⟩⟩ = 2) ∧
    (sceneDuration (fun bs => if bs = [7] then .ok ⟨2⟩ else .error ())
        ⟨0, "hi", "", none, none⟩ = 3) ∧
    (sceneDuration (fun bs => if bs = [7] then .ok ⟨2⟩ else .error ())
        ⟨0, "hi", "", none, some ⟨4, [9]⟩⟩ = 3) :=
  ⟨(scene_duration_matches_audio _ _).1 ⟨4, [7]⟩ ⟨2⟩ rfl rfl,
   (scene_duration_matches_audio _ _).2.1 rfl,
   (scene_duration_matches_audio _ _).2.2.1 ⟨4, [9]⟩ () rfl rfl⟩

/-- A host environment in which every decode fails and text has zero
width; progress emission does not depend on it. -/
def envTrivial : RenderEnv :=
  ⟨fun _ => .error (), fun _ => none, fun _ => 0⟩

/-- A one-scene story. -/
def storyOneScene : Story :=
  ⟨"s", "t", "", [⟨0, "你好", "", none, none⟩], 0, "9:16"⟩

/-- C3 counterexample: in a full render of a one-scene story the emitted
percents are `[0, 10, 99]` — the final percent handed to `onProgress` is
99, never 100. -/
theorem progress_never_reaches_100 :
    (generateStoryVideo envTrivial storyOneScene).progress = [0, 10, 99] ∧
      (generateStoryVideo envTrivial storyOneScene).progress.getLast? ≠ some 100 := by
  have h : (generateStoryVideo envTrivial storyOneScene).progress = [0, 10, 99] := by
    show progressPercents 1 = [0, 10, 99]
    norm_num [progressPercents, List.range_succ]
  refine ⟨h, ?_⟩
  rw [h]
  intro hh
  exact absurd (Option.some.inj hh) (by norm_num)

lemma ratio_nonneg (i n : ℕ) : (0 : ℚ) ≤ (i : ℚ) / (n : ℚ) := by
  positivity

lemma ratio_le_one {i n : ℕ} (h : i < n) : (i : ℚ) / (n : ℚ) ≤ 1 := by
  have hn : (0 : ℚ) < n := by exact_mod_cast Nat.zero_lt_of_lt h
  rw [div_le_one hn]
  exact_mod_cast h.le

lemma ratio_mono {i j : ℕ} (n : ℕ) (h : i ≤ j) : (i : ℚ) / (n : ℚ) ≤ (j : ℚ) / (n : ℚ) := by
  rcases Nat.eq_zero_or_pos n with h0 | h0
  · simp [h0]
  · have hn : (0 : ℚ) < n := by exact_mod_cast h0
    exact (div_le_div_iff_of_pos_right hn).mpr (by exact_mod_cast h)

/-- C3 amended: across one full render the percents passed to the
progress callback are non-decreasing, and the final emitted percent is
exactly 99 (the code's last `onProgress` call, before the outro; 100 is
never emitted). -/
theorem progress_nondecreasing_ends_at_99 (env : RenderEnv) (story : Story) :
    List.Chain' (· ≤ ·) (generateStoryVideo env story).progress ∧
      (generateStoryVideo env story).progress.getLast? = some 99 := by
  show List.Chain' (· ≤ ·) (progressPercents story.scenes.length) ∧
    (progressPercents story.scenes.length).getLast? = some 99
  set n := story.scenes.length with hn
  constructor
  · apply List.Pairwise.chain'
    rw [progressPercents]
    refine List.pairwise_append.mpr
      ⟨List.pairwise_append.mpr ⟨?_, ?_, ?_⟩, List.pairwise_singleton _ _, ?_⟩
    · exact (List.pairwise_lt_range n).map _
        (fun a b hab => by
          have := ratio_mono (i := a) (j := b) n hab.le
          linarith)
    · exact (List.pairwise_lt_range n).map _
        (fun a b hab => by
          have := ratio_mono (i := a) (j := b) n hab.le
          linarith)
    · intro x hx y hy
      obtain ⟨i, hi, rfl⟩ := List.mem_map.mp hx
      obtain ⟨j, hj, rfl⟩ := List.mem_map.mp hy
      have h1 := ratio_le_one (List.mem_range.mp hi)
      have h2 := ratio_nonneg j n
      linarith
    · intro x hx y hy
      rw [List.mem_singleton.mp hy]
      rcases List.mem_append.mp hx with hx | hx
      · obtain ⟨i, hi, rfl⟩ := List.mem_map.mp hx
        have h1 := ratio_le_one (List.mem_range.mp hi)
        linarith
      · obtain ⟨j, hj, rfl⟩ := List.mem_map.mp hx
        have h1 := ratio_le_one (List.mem_range.mp hj)
        linarith
  · rw [progressPercents]
    exact List.getLast?_concat _

/-- C4 counterexample: for scene index 1 (odd parity) with a 100-second
narration, the scale actually applied at elapsed 0.5 s is
`1.25 - 0.15·(0.5/100) + 0.005·sin 1 > 1.25` — the breathing term pushes
the applied scale outside `[1.10, 1.25]`. -/
theorem applied_scale_leaves_band :
    (0 : ℝ) ≤ 1 / 2 ∧ (1 / 2 : ℝ) < 100 ∧
      1.25 < appliedScale Real.sin 1 (1 / 2) 100 := by
  refine ⟨by norm_num, by norm_num, ?_⟩
  have hs : (3 / 4 : ℝ) < Real.sin 1 := by
    have h := Real.sin_gt_sub_cube (x := 1) one_pos le_rfl
    norm_num at h
    exact h
  rw [appliedScale, kenBurnsScale]
  norm_num
  linarith

/-- C4 amended: the Ken-Burns component of the scale (before the
breathing term) stays in `[1.10, 1.25]` throughout the scene and is
strictly increasing in progress for even scene index (zoom in), strictly
decreasing for odd (zoom out); the applied scale including the breathing
term stays within the widened band `[1.095, 1.255]` (breathing amplitude
0.005, `|sin| ≤ 1`). -/
theorem ken_burns_scale_bounds (i : Nat) (p : ℚ) (h0 : 0 ≤ p) (h1 : p ≤ 1) :
    (1.1 ≤ kenBurnsScale i p ∧ kenBurnsScale i p ≤ 1.25) ∧
    (∀ q : ℚ, p < q → i % 2 = 0 → kenBurnsScale i p < kenBurnsScale i q) ∧
    (∀ q : ℚ, p < q → i % 2 ≠ 0 → kenBurnsScale i q < kenBurnsScale i p) ∧
    (∀ (sin : ℚ → ℚ) (elapsed duration : ℚ), (∀ x, |sin x| ≤ 1) →
      elapsed / duration = p →
      1.095 ≤ appliedScale sin i elapsed duration ∧
        appliedScale sin i elapsed duration ≤ 1.255) := by
  have hbase : 1.1 ≤ kenBurnsScale i p ∧ kenBurnsScale i p ≤ 1.25 := by
    rw [kenBurnsScale]
    split <;> constructor <;> linarith
  refine ⟨hbase, ?_, ?_, ?_⟩
  · intro q hq hpar
    rw [kenBurnsScale, kenBurnsScale, if_pos hpar, if_pos hpar]
    linarith
  · intro q hq hpar
    rw [kenBurnsScale, kenBurnsScale, if_neg hpar, if_neg hpar]
    linarith
  · intro sin elapsed duration hsin hp
    have habs := abs_le.mp (hsin (elapsed * 2))
    rw [appliedScale, hp]
    constructor <;> linarith [hbase.1, hbase.2]

/-- C4 amended witness: scene 0 at progress 0 sits at the lower scale
bound 1.1. -/
theorem ken_burns_scale_bounds_witness :
    (0 : ℚ) ≤ 0 ∧ (0 : ℚ) ≤ 1 ∧
      (1.1 ≤ kenBurnsScale 0 (0 : ℚ) ∧ kenBurnsScale 0 (0 : ℚ) ≤ 1.25) :=
  ⟨le_refl 0, by norm_num, (ken_burns_scale_bounds 0 0 (le_refl 0) (by norm_num)).1⟩

/-- C6: a transition segment appears in the timeline exactly when a next
scene exists, and a one-scene story's timeline is preload, one playback,
outro, finalize — no transition at all. -/
theorem transition_only_when_next_scene (env : RenderEnv) (story : Story) :
    (∀ i, Segment.transition i ∈ (generateStoryVideo env story).segments ↔
        i + 1 < story.scenes.length) ∧
    (∀ s, story.scenes = [s] →
        (generateStoryVideo env story).segments =
          [Segment.preload,
           Segment.scenePlayback 0 (sceneDuration env.decodeAudio s),
           Segment.outro, Segment.finalize]) := by
  constructor
  · intro i
    constructor
    · intro hmem
      rcases List.mem_cons.mp hmem with h | h
      · exact absurd h (by simp)
      rcases List.mem_append.mp h with h | h
      · rw [sceneTimeline] at h
        obtain ⟨j, hj, hmem'⟩ := List.mem_flatMap.mp h
        rcases List.mem_cons.mp hmem' with h' | h'
        · exact absurd h' (by simp)
        by_cases hc : j + 1 < story.scenes.length
        · rw [if_pos hc] at h'
          have hij := Segment.transition.inj (List.mem_singleton.mp h')
          rw [hij]
          exact hc
        · rw [if_neg hc] at h'
          exact absurd h' (List.not_mem_nil _)
      · rcases List.mem_cons.mp h with h' | h'
        · exact absurd h' (by simp)
        · exact absurd (List.mem_singleton.mp h') (by simp)
    · intro hlt
      show _ ∈ renderSegments env story
      rw [renderSegments]
      refine List.mem_cons_of_mem _ (List.mem_append_left _ ?_)
      rw [sceneTimeline]
      refine List.mem_flatMap.mpr ⟨i, List.mem_range.mpr (Nat.lt_of_succ_lt hlt), ?_⟩
      refine List.mem_cons_of_mem _ ?_
      rw [if_pos hlt]
      exact List.mem_singleton_self _
  · intro s hs
    show renderSegments env story = _
    rw [renderSegments, sceneTimeline, hs]
    simp [List.range_succ]

/-- C6 witness: the one-scene story's concrete timeline has no
transition segment. -/
theorem transition_only_when_next_scene_witness :
    storyOneScene.scenes = [⟨0, "你好", "", none, none⟩] ∧
      (generateStoryVideo envTrivial storyOneScene).segments =
        [Segment.preload, Segment.scenePlayback 0 3,
         Segment.outro, Segment.finalize] :=
  ⟨rfl, (transition_only_when_next_scene envTrivial storyOneScene).2 _ rfl⟩

lemma ease_in_out_cubic_bounds (p : ℚ) (h0 : 0 ≤ p) (h1 : p ≤ 1) :
    0 ≤ easeInOutCubic p ∧ easeInOutCubic p ≤ 1 := by
  rw [easeInOutCubic]
  split
  · rename_i hc
    constructor
    · positivity
    · have hpp : p * p ≤ 1 / 4 := by nlinarith
      nlinarith
  · rename_i hc
    push_neg at hc
    have hu0 : (0 : ℚ) ≤ -2 * p + 2 := by linarith
    have hu1 : -2 * p + 2 ≤ 1 := by linarith
    have hcube0 : (0 : ℚ) ≤ (-2 * p + 2) ^ 3 := pow_nonneg hu0 3
    have hcube1 : (-2 * p + 2) ^ 3 ≤ 1 := by nlinarith [sq_nonneg (-2 * p + 2)]
    constructor <;> linarith

/-- C7: every transition frame at elapsed `t` of the fixed 0.8-second
window uses the eased progress `4p³` for `p < 0.5` and
`1 - (-2p + 2)³ / 2` for `p ≥ 0.5` (with `p = t / 0.8`), is independent of
the scene index, and pushes leftward: the outgoing layer is shifted by
`-(w · ease)` (staying in `[-w, 0]`) while the incoming layer starts at
`w - w · ease` (staying in `[0, w]`). -/
theorem transition_pushes_left (w t : ℚ) (i j : Nat)
    (h0 : 0 ≤ t) (h1 : t < transitionDuration) (hw : 0 < w) :
    (easeInOutCubic (t / transitionDuration) =
      if t / transitionDuration < 0.5
      then 4 * (t / transitionDuration) * (t / transitionDuration) * (t / transitionDuration)
      else 1 - (-2 * (t / transitionDuration) + 2) ^ 3 / 2) ∧
    transitionDuration = 0.8 ∧
    (transitionFrameAt w i t).outgoingShift =
      -(w * easeInOutCubic (t / transitionDuration)) ∧
    (transitionFrameAt w i t).incomingShift =
      w - w * easeInOutCubic (t / transitionDuration) ∧
    transitionFrameAt w i t = transitionFrameAt w j t ∧
    -w ≤ (transitionFrameAt w i t).outgoingShift ∧
    (transitionFrameAt w i t).outgoingShift ≤ 0 ∧
    0 ≤ (transitionFrameAt w i t).incomingShift ∧
    (transitionFrameAt w i t).incomingShift ≤ w := by
  have hp0 : (0 : ℚ) ≤ t / transitionDuration := by
    apply div_nonneg h0
    rw [transitionDuration]; norm_num
  have hp1 : t / transitionDuration ≤ 1 := by
    rw [div_le_one (by rw [transitionDuration]; norm_num)]
    exact h1.le
  obtain ⟨he0, he1⟩ := ease_in_out_cubic_bounds _ hp0 hp1
  have hmul0 : 0 ≤ w * easeInOutCubic (t / transitionDuration) :=
    mul_nonneg hw.le he0
  have hmul1 : w * easeInOutCubic (t / transitionDuration) ≤ w := by
    nlinarith
  refine ⟨by rw [easeInOutCubic], rfl, rfl, rfl, rfl, ?_, ?_, ?_, ?_⟩ <;>
    simp only [transitionFrameAt, drawCinematicTransition] <;> linarith

/-- C7 witness: at the start of a transition on a width-1 canvas the
outgoing layer has not moved and the incoming layer waits at the right
edge. -/
theorem transition_pushes_left_witness :
    (0 : ℚ) ≤ 0 ∧ (0 : ℚ) < transitionDuration ∧ (0 : ℚ) < 1 ∧
      (transitionFrameAt (1 : ℚ) 0 0).outgoingShift ≤ 0 ∧
      0 ≤ (transitionFrameAt (1 : ℚ) 0 0).incomingShift :=
  ⟨le_refl 0, by rw [transitionDuration]; norm_num, by norm_num,
   (transition_pushes_left 1 0 0 7 (le_refl 0)
      (by rw [transitionDuration]; norm_num) (by norm_num)).2.2.2.2.2.2.1,
   (transition_pushes_left 1 0 0 7 (le_refl 0)
      (by rw [transitionDuration]; norm_num) (by norm_num)).2.2.2.2.2.2.2.1⟩

/-- C8: whatever the render body does — success or error — the
`finally` tail stops the encoder and closes the audio clock; an error of
the body is propagated unchanged and no blob (not even an incomplete one) is
produced; in particular every `generateStoryVideo` call ends with both
resources released. -/
theorem cleanup_on_every_exit_path :
    (∀ (ε : Type) (body : Except ε Unit),
      (finishRender body).1.recorderStopped = true ∧
      (finishRender body).1.audioCtxClosed = true ∧
      (∀ e, body = .error e → (finishRender body).2 = .error e) ∧
      (∀ e b, body = .error e → (finishRender body).2 ≠ .ok b)) ∧
    (∀ env story,
      (generateStoryVideo env story).cleanup = ⟨true, true⟩ ∧
      (generateStoryVideo env story).result =
        (finishRender (ε := Unit) (.ok ())).2) := by
  refine ⟨fun ε body => ⟨rfl, rfl, ?_, ?_⟩, fun env story => ⟨rfl, rfl⟩⟩
  · intro e he
    rw [he]
    rfl
  · intro e b he hok
    rw [he] at hok
    exact Except.noConfusion hok

/-- C8 witness: a body that fails with a concrete error still leaves both
resources released, and the error comes back unchanged. -/
theorem cleanup_on_every_exit_path_witness :
    (finishRender (ε := String) (.error "boom")).1.recorderStopped = true ∧
      (finishRender (ε := String) (.error "boom")).2 = .error "boom" :=
  ⟨(cleanup_on_every_exit_path.1 String (.error "boom")).1,
   (cleanup_on_every_exit_path.1 String (.error "boom")).2.2.1 "boom" rfl⟩

lemma wrapChars_ne_nil (measure : String → ℚ) (maxWidth : ℚ) (text : String) :
    wrapChars measure maxWidth text ≠ [] := by
  rw [wrapChars]
  split
  · simp
  · simp [wrapGo_ne_nil]

lemma drawSubtitles_has_rect (measure : String → ℚ) (text : String)
    (w h opacity : ℚ) :
    ∃ x y wd ht, DrawOp.rect x y wd ht ∈ drawSubtitles measure text w h opacity := by
  rw [drawSubtitles]
  simp only [List.mem_cons]
  exact ⟨_, _, _, _, Or.inr (Or.inl rfl)⟩

lemma drawSubtitles_has_text (measure : String → ℚ) (text : String)
    (w h opacity : ℚ) :
    ∃ l x y, DrawOp.text l x y ∈ drawSubtitles measure text w h opacity := by
  obtain ⟨l0, ls, hl⟩ := List.exists_cons_of_ne_nil
    (wrapChars_ne_nil measure (w - 24 * 4) text)
  rw [drawSubtitles]
  simp only [hl, List.enum_cons, List.map_cons, List.mem_cons]
  exact ⟨l0, _, _, Or.inr (Or.inr (Or.inl rfl))⟩

/-- C5: when the image decode of the middle scene of a three-scene story
fails, the render still completes with a blob, and every frame of that
scene carries no background pixel data (its single `drawImage` records
`none`) while the subtitle overlay is still drawn (a backdrop strip and at
least one text line). -/
theorem render_tolerates_image_decode_failure (env : RenderEnv) (story : Story)
    (s1 s2 s3 : Scene) (hs : story.scenes = [s1, s2, s3])
    (hfail : env.decodeImage s2.imageData = none) :
    (∃ b : Blob, (generateStoryVideo env story).result = .ok b) ∧
    (∀ cw ch sinSample elapsed duration : ℚ,
      (∀ bm x y rw rh, DrawOp.image (some bm) x y rw rh ∉
          renderSceneFrame env.measure 1 s2 (loadImage env s2)
            cw ch sinSample elapsed duration) ∧
      (∃ x y wd ht, DrawOp.rect x y wd ht ∈
          renderSceneFrame env.measure 1 s2 (loadImage env s2)
            cw ch sinSample elapsed duration) ∧
      (∃ l x y, DrawOp.text l x y ∈
          renderSceneFrame env.measure 1 s2 (loadImage env s2)
            cw ch sinSample elapsed duration)) := by
  refine ⟨⟨⟨"video/webm"⟩, rfl⟩, ?_⟩
  intro cw ch sinSample elapsed duration
  have himg : loadImage env s2 = ⟨none⟩ := by
    rw [loadImage, hfail]
  refine ⟨?_, ?_, ?_⟩
  · intro bm x y rw rh hmem
    simp [renderSceneFrame, drawKenBurns, drawSubtitles, himg] at hmem
  · obtain ⟨x, y, wd, ht, hmem⟩ :=
      drawSubtitles_has_rect env.measure s2.narration cw ch (min (elapsed * 2) 1)
    refine ⟨x, y, wd, ht, ?_⟩
    rw [renderSceneFrame]
    exact List.mem_cons_of_mem _ (List.mem_append_right _ hmem)
  · obtain ⟨l, x, y, hmem⟩ :=
      drawSubtitles_has_text env.measure s2.narration cw ch (min (elapsed * 2) 1)
    refine ⟨l, x, y, ?_⟩
    rw [renderSceneFrame]
    exact List.mem_cons_of_mem _ (List.mem_append_right _ hmem)

/-- A three-scene story whose middle scene has an image that will fail to
decode under `envTrivial` (which decodes nothing). -/
def storyThreeScenes : Story :=
  ⟨"s3", "t", "",
   [⟨0, "一", "", some "aaa", none⟩,
    ⟨1, "二", "", some "bbb", none⟩,
    ⟨2, "三", "", some "ccc", none⟩], 0, "16:9"⟩

/-- C5 witness: with the middle image undecodable the three-scene render
still returns a blob. -/
theorem render_tolerates_image_decode_failure_witness :
    envTrivial.decodeImage (⟨1, "二", "", some "bbb", none⟩ : Scene).imageData = none ∧
      ∃ b : Blob, (generateStoryVideo envTrivial storyThreeScenes).result = .ok b :=
  ⟨rfl,
   (render_tolerates_image_decode_failure envTrivial storyThreeScenes
      ⟨0, "一", "", some "aaa", none⟩ ⟨1, "二", "", some "bbb", none⟩
      ⟨2, "三", "", some "ccc", none⟩ rfl rfl).1⟩

/-- C10: a render never mutates its input story.  The buffers handed to
the audio decoder are the `slice(0)` copies — same bytes, fresh
identities — so even a decoder that detaches (consumes) its input leaves
every scene's `narration`, `imageData` and `audioData` exactly as they
were; no scene field is ever written. -/
theorem render_does_not_mutate_story (alloc : Nat → Nat) (story : Story)
    (hfresh : ∀ i, alloc i ∉ storyBufIds story) :
    storyAfterRender alloc story = story ∧
    (decodeCallBufs alloc story).map (fun b => b.data) =
      story.scenes.filterMap (fun s => s.audioData.map (fun b => b.data)) := by
  constructor
  · have hdet : ∀ x ∈ detachedIds alloc story, ∃ i, x = alloc i := by
      intro x hx
      rw [detachedIds] at hx
      obtain ⟨b, hb, rfl⟩ := List.mem_map.mp hx
      rw [decodeCallBufs] at hb
      obtain ⟨p, _, hp⟩ := List.mem_filterMap.mp hb
      obtain ⟨b0, _, rfl⟩ := Option.map_eq_some'.mp hp
      exact ⟨p.1, rfl⟩
    rw [storyAfterRender]
    have hid : ∀ s ∈ story.scenes,
        ({ s with audioData := s.audioData.bind fun b =>
            if b.bufId ∈ detachedIds alloc story then none else some b } : Scene) = s := by
      intro s hsmem
      obtain ⟨sid, snar, svp, simg, saud⟩ := s
      cases saud with
      | none => rfl
      | some b =>
        have hbid : b.bufId ∈ storyBufIds story := by
          rw [storyBufIds]
          exact List.mem_filterMap.mpr ⟨⟨sid, snar, svp, simg, some b⟩, hsmem, rfl⟩
        have hnot : b.bufId ∉ detachedIds alloc story := by
          intro hmem
          obtain ⟨i, hi⟩ := hdet _ hmem
          exact hfresh i (hi ▸ hbid)
        have hbnd : ((some b).bind fun b =>
            if b.bufId ∈ detachedIds alloc story then none else some b) = some b := by
          show (if b.bufId ∈ detachedIds alloc story then none else some b) = some b
          exact if_neg hnot
        rw [hbnd]
    have hscenes : story.scenes.map (fun s =>
        { s with audioData := s.audioData.bind fun b =>
            if b.bufId ∈ detachedIds alloc story then none else some b }) =
        story.scenes := by
      rw [List.map_congr_left hid]
      exact List.map_id' story.scenes
    rw [hscenes]
  · rw [decodeCallBufs, List.map_filterMap]
    have hpt : story.scenes.enum.filterMap
        (fun p => (p.2.audioData.map (sliceCopy (alloc p.1))).map (fun b => b.data)) =
        story.scenes.enum.filterMap (fun p => p.2.audioData.map (fun b => b.data)) := by
      apply List.filterMap_congr
      intro p _
      cases p.2.audioData <;> rfl
    rw [hpt]
    conv_rhs => rw [← List.enum_map_snd story.scenes]
    rw [List.filterMap_map]
    rfl

/-- A story holding one audio buffer with identity 0. -/
def storyWithAudio : Story :=
  ⟨"sw", "t", "", [⟨0, "好", "", none, some ⟨0, [7, 8]⟩⟩], 0, "9:16"⟩

/-- C10 witness: with fresh copy identities (all 5, never 0) the story is
bit-for-bit unchanged by the render. -/
theorem render_does_not_mutate_story_witness :
    (∀ i : Nat, (fun _ : Nat => 5) i ∉ storyBufIds storyWithAudio) ∧
      storyAfterRender (fun _ => 5) storyWithAudio = storyWithAudio :=
  ⟨fun i => show (5 : Nat) ∉ storyBufIds storyWithAudio by decide,
   (render_does_not_mutate_story (fun _ => 5) storyWithAudio
      (fun i => show (5 : Nat) ∉ storyBufIds storyWithAudio by decide)).1⟩

/-- C9 witness: under a concrete measurer the empty narration yields
exactly the one undefined line. -/
theorem wrap_empty_line_is_undefined_witness :
    wrapChars (fun _ => 0) 0 "" = [none] ∧
      wrapChars (fun _ => 0) 0 "" ≠ [some ""] :=
  ⟨(wrap_empty_line_is_undefined (fun _ => 0) 0).1,
   (wrap_empty_line_is_undefined (fun _ => 0) 0).2 ""⟩
